import Mathlib

/-!
Shallow embedding of the job-discovery pipeline of `app/services/discovery_service.py`
and the request/job models of `app/models/discovery.py`.

External effects (the Groq chat-completion calls, DuckDuckGo search, HTTP page
fetches, BeautifulSoup text cleaning, and the possibility that a gathered task
raises) are modelled as an explicit environment (`DiscoveryEnv`): for each call
site the environment records the value the external world returned for that
call. Every function of the service itself is translated directly from the
Python source. Python floats carrying confidence scores are modelled as `ℚ`
(only comparisons are performed on them); Python's `list[:n]` slicing with a
possibly-negative bound is modelled by `pyTake`.
-/

namespace Discovery

/-! ### String helpers (substring tests used by `in`, `re.search`, `.lower()`) -/

/-- Substring test: `needle` occurs as a contiguous substring of `hay` (Python's `needle in hay`). -/
def containsSub (hay needle : List Char) : Bool :=
  hay.tails.any (fun t => needle.isPrefixOf t)

/-- String-level substring test. -/
def strContains (hay needle : String) : Bool :=
  containsSub hay.toList needle.toList

/-- ASCII lower-casing, modelling Python's `str.lower()` on the URLs involved. -/
def strToLower (s : String) : String :=
  String.mk (s.toList.map Char.toLower)

/-- The suffix of `l` right after the first occurrence of `pat`, if `pat` occurs. -/
def afterSub (pat : List Char) : List Char → Option (List Char)
  | [] => if pat = [] then some [] else none
  | c :: rest =>
    if pat.isPrefixOf (c :: rest) then some ((c :: rest).drop pat.length)
    else afterSub pat rest

/-- Models `urllib.parse.urlparse(url).netloc` for the `scheme://host/path`
URLs this service handles: the text between `://` and the next `/`, `?` or `#`;
empty when the URL has no `://` (as `urlparse` gives for scheme-less strings). -/
def urlNetloc (url : String) : String :=
  match afterSub "://".toList url.toList with
  | none => ""
  | some rest => String.mk (rest.takeWhile (fun c => !(c == '/' || c == '?' || c == '#')))

/-! ### URL filter (`is_valid_career_url`) -/

/-- The source's `EXCLUDED_DOMAINS`: job aggregators rejected outright. -/
def EXCLUDED_DOMAINS : List String :=
  ["indeed.com", "linkedin.com", "glassdoor.com", "ziprecruiter.com",
   "monster.com", "naukri.com", "dice.com"]

/-- Models `re.search(r'workday\.com.*careers', url)`: `workday.com` occurs and
`careers` occurs somewhere after it. -/
def workdayCareersHit (lurl : String) : Bool :=
  match afterSub "workday.com".toList lurl.toList with
  | none => false
  | some rest => containsSub rest "careers".toList

/-- The source's `CAREER_PAGE_PATTERNS`, each `re.search` reduced to the
substring test it performs (all patterns are literals except the `workday` one). -/
def careerPatternHit (lurl : String) : Bool :=
  strContains lurl "/careers" || strContains lurl "/jobs" ||
  strContains lurl "/join" || strContains lurl "/work-with-us" ||
  strContains lurl "/opportunities" || strContains lurl "boards.greenhouse.io" ||
  strContains lurl "jobs.lever.co" || strContains lurl "careers.smartrecruiters.com" ||
  workdayCareersHit lurl

/-- Keyword tier of the filter. -/
def careerKeywords : List String := ["career", "job", "hiring", "join", "work"]

/-- The source's `is_valid_career_url`: reject aggregator domains, accept
career-page patterns, accept job keywords, otherwise reject. -/
def is_valid_career_url (url : String) : Bool :=
  let domain := strToLower (urlNetloc url)
  if EXCLUDED_DOMAINS.any (fun d => strContains domain d) then false
  else
    let full := strToLower url
    if careerPatternHit full then true
    else if careerKeywords.any (fun kw => strContains full kw) then true
    else false

/-! ### Data model (`app/models/discovery.py`) -/

/-- Request model `DiscoverJobsRequest` (pydantic). Field types as declared; integer
fields are modelled as `Int` because pydantic's `int` is unbounded and the
model declares no lower bound on them. -/
structure DiscoverJobsRequest where
  role : String
  experience_years : Int
  skills : List String
  location : String
  max_results : Int
  include_startups : Bool
  include_enterprise : Bool
  custom_search_terms : List String
deriving DecidableEq

/-- The only field constraint the pydantic request model declares is
`max_results: int = Field(default=20, le=20)`; a request passes boundary
validation exactly when that constraint holds. -/
def requestAccepted (r : DiscoverJobsRequest) : Bool :=
  r.max_results ≤ 20

/-- Job model `DiscoveredJob` (pydantic); `confidence_score` is a float in
`[0, 1]`, modelled as `ℚ`. -/
structure DiscoveredJob where
  title : String
  company : String
  location : Option String
  description : String
  apply_url : String
  source_url : String
  salary_range : Option String
  job_type : Option String
  posted_date : Option String
  requirements : List String
  confidence_score : ℚ
deriving DecidableEq

/-- One element of the JSON array the extraction model emits, after JSON
decoding: each known field either absent (`none`) or present with a value of
the declared type. -/
structure JobDict where
  title : Option String
  company : Option String
  location : Option String
  description : Option String
  apply_url : Option String
  salary_range : Option String
  job_type : Option String
  posted_date : Option String
  requirements : Option (List String)
  confidence_score : Option ℚ
deriving DecidableEq

/-! ### Python `list[:n]` slicing -/

/-- Python's `l[:n]` for an `Int` bound: a nonnegative bound keeps the first
`n` elements, a negative bound drops the last `-n`. -/
def pyTake (n : Int) (l : List α) : List α :=
  if 0 ≤ n then l.take n.toNat else l.take (l.length - (-n).toNat)

/-! ### Query synthesis (`generate_search_queries`) -/

/-- The deterministic fallback query list built when the model call fails
(lines 131-140 of the source): four fixed templates, one skill query when
skills are present, then every custom term — with no truncation. -/
def fallback_queries (role : String) (skills : List String) (location : String)
    (custom_terms : List String) : List String :=
  [role ++ " careers " ++ location,
   role ++ " jobs company hiring",
   "site:greenhouse.io " ++ role,
   "site:lever.co " ++ role] ++
  (match skills with
   | [] => []
   | s :: _ => [s ++ " developer jobs " ++ location]) ++
  custom_terms

/-- Query synthesis `generate_search_queries`: `llm` is the JSON array of strings the chat
completion produced, or `none` for every failure mode the source catches
(non-200 status, JSON parse failure, non-list payload, any exception). On
success the source appends `custom_terms` and truncates to 10; otherwise it
returns the fallback list. -/
def generate_search_queries (llm : Option (List String)) (role : String)
    (skills : List String) (location : String) (custom_terms : List String) :
    List String :=
  match llm with
  | some queries => (queries ++ custom_terms).take 10
  | none => fallback_queries role skills location custom_terms

/-! ### Page discovery (`discover_career_pages`) -/

/-- Inner loop over one query's search hits: each hit with a nonempty `href`
passing the URL filter is added to the accumulating set (kept here as an
insertion-ordered duplicate-free list); the loop breaks once the set reaches
`max_results`. -/
def addUrls (maxResults : Int) : List String → List String → List String
  | discovered, [] => discovered
  | discovered, url :: rest =>
    if url ≠ "" && is_valid_career_url url then
      let d := if url ∈ discovered then discovered else discovered ++ [url]
      if maxResults ≤ (d.length : Int) then d
      else addUrls maxResults d rest
    else addUrls maxResults discovered rest

/-- Outer loop over the queries: stop as soon as the set has reached
`max_results`, otherwise search the next query and fold its hits in.
Per-query search failures are swallowed in the source (`continue`), which
coincides with that query contributing no hits. -/
def discoverLoop (search : String → List String) (maxResults : Int) :
    List String → List String → List String
  | discovered, [] => discovered
  | discovered, q :: qs =>
    if maxResults ≤ (discovered.length : Int) then discovered
    else discoverLoop search maxResults (addUrls maxResults discovered (search q)) qs

/-- Page discovery `discover_career_pages`: run the search loop, then `list(urls)[:max_results]`. -/
def discover_career_pages (search : String → List String) (queries : List String)
    (maxResults : Int) : List String :=
  pyTake maxResults (discoverLoop search maxResults [] queries)

/-! ### Page fetching (`crawl_page`) -/

/-- Outcome of the HTTP GET inside `crawl_page`: a transport-level exception,
or a response with its status code and body. Redirects are followed by the
client, so the status is the final one. -/
inductive FetchOutcome where
  | transportError (msg : String)
  | response (status : Nat) (body : String)
deriving DecidableEq

/-- BeautifulSoup text cleaning followed by the 15000-character truncation
(lines 242-255). The cleaning itself (`get_text` after dropping
script/style/nav/footer/header) is library behaviour, abstracted as `clean`. -/
def cleanAndTruncate (clean : String → String) (body : String) : String :=
  let text := clean body
  if 15000 < text.length then String.mk (text.toList.take 15000) else text

/-- Page fetch `crawl_page`: `None` on any transport exception or any status other than
exactly 200; cleaned, truncated text otherwise. The whole body is wrapped in
`try/except`, so the function is total (never raises). -/
def crawl_page (clean : String → String) : FetchOutcome → Option String
  | .transportError _ => none
  | .response status body =>
    if status ≠ 200 then none else some (cleanAndTruncate clean body)

/-! ### Job extraction (`extract_jobs_from_content`) -/

/-- Lines 345-348 plus the `DiscoveredJob(**job_dict)` pydantic construction
for one element of the model's JSON array: default a falsy `apply_url` to the
source URL, force `source_url`, default absent `requirements`/`confidence_score`,
and reject (`none`) any element missing a required field or carrying a
confidence score outside `[0, 1]`. -/
def parseJob (source_url : String) (d : JobDict) : Option DiscoveredJob :=
  let applyUrl := match d.apply_url with
    | none => source_url
    | some s => if s = "" then source_url else s
  match d.title, d.company, d.description with
  | some t, some c, some desc =>
    let conf := d.confidence_score.getD 0
    if 0 ≤ conf ∧ conf ≤ 1 then
      some { title := t, company := c, location := d.location, description := desc,
             apply_url := applyUrl, source_url := source_url,
             salary_range := d.salary_range, job_type := d.job_type,
             posted_date := d.posted_date, requirements := d.requirements.getD [],
             confidence_score := conf }
    else none
  | _, _, _ => none

/-- The per-element loop of lines 342-357: elements failing validation are
dropped individually, the rest are kept in order. -/
def parseJobs (source_url : String) (elems : List JobDict) : List DiscoveredJob :=
  elems.filterMap (parseJob source_url)

/-- Job extraction `extract_jobs_from_content`: empty page text (or under 100 characters)
short-circuits to `[]` with no model call; `llm` is the JSON array the chat
completion produced, or `none` for every failure the source maps to `[]`
(non-200 status, fence-stripped JSON parse failure, non-list payload,
any exception). -/
def extract_jobs_from_content (content : String) (source_url : String)
    (llm : Option (List JobDict)) : List DiscoveredJob :=
  if content.length < 100 then []
  else
    match llm with
    | none => []
    | some elems => parseJobs source_url elems

/-! ### The final sort (`all_jobs.sort(key=..., reverse=True)`)

Python's `list.sort` is stable, also with `reverse=True`: ties keep their
original relative order. The insertion sort below has exactly that semantics
for the descending-by-`confidence_score` order: an element is placed after
every strictly higher-scored element and before every element scored at most
equal that follows it in the original list. -/

/-- Stable descending insertion of one job into an already processed list. -/
def insertJobDesc (j : DiscoveredJob) : List DiscoveredJob → List DiscoveredJob
  | [] => [j]
  | a :: rest =>
    if j.confidence_score < a.confidence_score then a :: insertJobDesc j rest
    else j :: a :: rest

/-- Stable sort, descending by `confidence_score`. -/
def sortJobsDesc : List DiscoveredJob → List DiscoveredJob
  | [] => []
  | j :: rest => insertJobDesc j (sortJobsDesc rest)

/-! ### The orchestrator (`discover_jobs`) -/

/-- The environment a single `discover_jobs` run interacts with: what each
external call site returned during that run. `taskExc` models the
`asyncio.gather(..., return_exceptions=True)` escape hatch — `some msg` means
the per-URL task for that URL raised an exception whose `str` is `msg`. -/
structure DiscoveryEnv where
  queryLLM : Option (List String)
  search : String → List String
  fetch : String → FetchOutcome
  clean : String → String
  extractLLM : String → Option (List JobDict)
  taskExc : String → Option String

/-- What one `process_url` task contributes to the `gather` result: either the
exception it raised, or its job list together with whether the crawl yielded
truthy content (`sources_crawled` increment) and the error string recorded
when it did not. -/
inductive TaskResult where
  | exc (msg : String)
  | ok (jobs : List DiscoveredJob) (crawled : Bool) (crawlErr : Option String)
deriving DecidableEq

/-- Jobs a task contributed (`all_jobs.extend(result)` only sees lists). -/
def resultJobs : TaskResult → List DiscoveredJob
  | .ok js _ _ => js
  | .exc _ => []

/-- Whether the task incremented `sources_crawled`. -/
def resultCrawled : TaskResult → Bool
  | .ok _ c _ => c
  | .exc _ => false

/-- The `"Failed to crawl: ..."` entry the task appended, if any. -/
def resultCrawlErr : TaskResult → Option String
  | .ok _ _ e => e
  | .exc _ => none

/-- The exception string the gather loop appends, if the task raised. -/
def resultExc : TaskResult → Option String
  | .exc m => some m
  | .ok _ _ _ => none

/-- The per-URL task `process_url` (lines 413-431): crawl, and on truthy
content (Python's `if content:` — `None` and `""` are both falsy) extract
jobs; otherwise record a crawl-failure error. A raised exception is surfaced
to the gather loop unchanged. -/
def process_url (env : DiscoveryEnv) (url : String) : TaskResult :=
  match env.taskExc url with
  | some msg => .exc msg
  | none =>
    match crawl_page env.clean (env.fetch url) with
    | some content =>
      if content = "" then .ok [] false (some ("Failed to crawl: " ++ url))
      else .ok (extract_jobs_from_content content url (env.extractLLM url)) true none
    | none => .ok [] false (some ("Failed to crawl: " ++ url))

/-- The queries a run uses (step 1 of `discover_jobs`). -/
def runQueries (env : DiscoveryEnv) (request : DiscoverJobsRequest) : List String :=
  generate_search_queries env.queryLLM request.role request.skills
    request.location request.custom_search_terms

/-- The URLs a run discovers (step 2 of `discover_jobs`). -/
def discoveredUrls (env : DiscoveryEnv) (request : DiscoverJobsRequest) : List String :=
  discover_career_pages env.search (runQueries env request) request.max_results

/-- The concatenation, in URL order, of every task's job list — the `all_jobs`
accumulator right before the final sort and truncation. -/
def mergedJobs (env : DiscoveryEnv) (request : DiscoverJobsRequest) : List DiscoveredJob :=
  (((discoveredUrls env request).map (process_url env)).map resultJobs).flatten

/-- Orchestrator `discover_jobs`: the full orchestration, returning
`(jobs, search_queries_used, sources_crawled, errors)`. The empty-URL case is
the distinguished early return of lines 402-404; otherwise every URL's task
outcome is collected (`gather` with `return_exceptions=True` aborts nothing),
crawl-failure errors precede exception strings, and the merged job list is
stably sorted by descending confidence and truncated to `max_results`. -/
def discover_jobs (env : DiscoveryEnv) (request : DiscoverJobsRequest) :
    List DiscoveredJob × List String × Nat × List String :=
  let queries := runQueries env request
  let urls := discoveredUrls env request
  if urls = [] then
    ([], queries, 0, ["No career pages found for given criteria"])
  else
    let results := urls.map (process_url env)
    let all_jobs := (results.map resultJobs).flatten
    let sources_crawled := (results.filter resultCrawled).length
    let errs := results.filterMap resultCrawlErr ++ results.filterMap resultExc
    (pyTake request.max_results (sortJobsDesc all_jobs), queries, sources_crawled, errs)

/-! ### The concurrency gate (`asyncio.Semaphore(5)`)

Cooperative concurrency is an interleaving of task steps. The state below
tracks, for a run over `n` discovered URLs, how many semaphore slots are free,
how many per-URL pipelines currently hold the gate (are between `async with
semaphore` entry and exit), how many have not yet entered, and how many have
finished. A step is either a pipeline entering the gate — which the semaphore
permits only when a slot is free — or a pipeline leaving it. -/

structure CrawlGateState where
  available : Nat
  holding : Nat
  pending : Nat
  finished : Nat
deriving DecidableEq

/-- Initial state of a crawl phase over `n` URLs: the source constructs
`asyncio.Semaphore(5)`, so 5 slots are free and no task holds the gate. -/
def crawlGateInit (n : Nat) : CrawlGateState :=
  { available := 5, holding := 0, pending := n, finished := 0 }

/-- One scheduler step of the crawl phase. `enter` is `semaphore.acquire()`:
it fires only when a slot is free, otherwise the requesting task stays
suspended. `leave` is the release on exit from the `async with` block. -/
inductive CrawlGateStep : CrawlGateState → CrawlGateState → Prop where
  | enter (a h p f : Nat) : 0 < a → 0 < p →
      CrawlGateStep ⟨a, h, p, f⟩ ⟨a - 1, h + 1, p - 1, f⟩
  | leave (a h p f : Nat) : 0 < h →
      CrawlGateStep ⟨a, h, p, f⟩ ⟨a + 1, h - 1, p, f + 1⟩

/-- States reachable during a crawl phase over `n` URLs. -/
inductive CrawlGateReachable (n : Nat) : CrawlGateState → Prop where
  | init : CrawlGateReachable n (crawlGateInit n)
  | step {s s' : CrawlGateState} :
      CrawlGateReachable n s → CrawlGateStep s s' → CrawlGateReachable n s'

/-! ### Concrete runs used as test inputs

Confidence scores are written with `mkRat` (e.g. `mkRat 9 10` is 0.9). -/

/-- Three direct-employer career URLs, all accepted by the URL filter. -/
def urlA : String := "https://a.example/careers"

/-- Second concrete career URL. -/
def urlB : String := "https://b.example/careers"

/-- Third concrete career URL. -/
def urlC : String := "https://c.example/careers"

/-- A cleaned page text long enough (120 characters) to clear the 100-character
extraction threshold. -/
def pageText : String := String.mk (List.replicate 120 'x')

/-- A well-formed model-emitted job element with the given title and score. -/
def dictWith (t : String) (score : ℚ) : JobDict :=
  ⟨some t, some "Acme", none, some "desc", none, none, none, none, none, some score⟩

/-- The job record `dictWith t score` parses to when crawled from `src`. -/
def jobWith (src t : String) (score : ℚ) : DiscoveredJob :=
  ⟨t, "Acme", none, "desc", src, src, none, none, none, [], score⟩

/-- A run: one query finds three career pages; the task for `urlA` raises an
exception reading `"boom"`; `urlB` and `urlC` each yield two jobs. -/
def env3 : DiscoveryEnv where
  queryLLM := some ["q"]
  search := fun q => if q = "q" then [urlA, urlB, urlC] else []
  fetch := fun _ => .response 200 pageText
  clean := id
  extractLLM := fun u =>
    if u = urlB then some [dictWith "b1" (mkRat 9 10), dictWith "b2" (mkRat 8 10)]
    else if u = urlC then some [dictWith "c1" (mkRat 5 10), dictWith "c2" (mkRat 4 10)]
    else none
  taskExc := fun u => if u = urlA then some "boom" else none

/-- A request with `max_results = 3`. -/
def req3 : DiscoverJobsRequest :=
  ⟨"dev", 1, [], "Remote", 3, true, true, []⟩

/-- A run in which the search returns nothing and every fetch fails. -/
def envTrivial : DiscoveryEnv where
  queryLLM := some ["q"]
  search := fun _ => []
  fetch := fun _ => .transportError "down"
  clean := id
  extractLLM := fun _ => none
  taskExc := fun _ => none

/-- An ordinary request with `max_results = 5`. -/
def reqBase : DiscoverJobsRequest :=
  ⟨"Backend Engineer", 2, [], "Remote", 5, true, true, []⟩

/-- A request with negative `max_results`. -/
def reqNeg : DiscoverJobsRequest :=
  ⟨"Backend Engineer", 2, [], "Remote", -1, true, true, []⟩

/-- A request with `max_results = 0`. -/
def reqZero : DiscoverJobsRequest :=
  ⟨"Backend Engineer", 2, [], "Remote", 0, true, true, []⟩

/-- A model-emitted job element whose confidence score 2 is out of range. -/
def dictBad : JobDict :=
  ⟨some "t", some "Acme", none, some "desc", none, none, none, none, none, some 2⟩

/-! ## Lemmas about the sort -/

/-- Membership in a stable descending insertion. -/
theorem mem_insertJobDesc {a j : DiscoveredJob} {l : List DiscoveredJob} :
    a ∈ insertJobDesc j l ↔ a = j ∨ a ∈ l := by
  induction l with
  | nil => simp [insertJobDesc]
  | cons b rest ih =>
    by_cases h : j.confidence_score < b.confidence_score
    · simp only [insertJobDesc, if_pos h, List.mem_cons, ih]
      tauto
    · simp only [insertJobDesc, if_neg h, List.mem_cons]

/-- Insertion is a permutation of consing. -/
theorem insertJobDesc_perm (j : DiscoveredJob) (l : List DiscoveredJob) :
    List.Perm (insertJobDesc j l) (j :: l) := by
  induction l with
  | nil => simp [insertJobDesc]
  | cons b rest ih =>
    by_cases h : j.confidence_score < b.confidence_score
    · simp only [insertJobDesc, if_pos h]
      exact (ih.cons b).trans (List.Perm.swap j b rest)
    · simp [insertJobDesc, h]

/-- The stable sort permutes its input. -/
theorem sortJobsDesc_perm (l : List DiscoveredJob) : List.Perm (sortJobsDesc l) l := by
  induction l with
  | nil => simp [sortJobsDesc]
  | cons j rest ih =>
    exact (insertJobDesc_perm j (sortJobsDesc rest)).trans (ih.cons j)

/-- Insertion preserves descending sortedness. -/
theorem pairwise_insertJobDesc {j : DiscoveredJob} {l : List DiscoveredJob}
    (h : l.Pairwise (fun a b => b.confidence_score ≤ a.confidence_score)) :
    (insertJobDesc j l).Pairwise
      (fun a b => b.confidence_score ≤ a.confidence_score) := by
  induction l with
  | nil => simp [insertJobDesc]
  | cons b rest ih =>
    rcases List.pairwise_cons.mp h with ⟨hb, hrest⟩
    by_cases hlt : j.confidence_score < b.confidence_score
    · simp only [insertJobDesc, if_pos hlt]
      refine List.pairwise_cons.mpr ⟨?_, ih hrest⟩
      intro x hx
      rcases mem_insertJobDesc.mp hx with rfl | hx
      · exact le_of_lt hlt
      · exact hb x hx
    · simp only [insertJobDesc, if_neg hlt]
      push_neg at hlt
      refine List.pairwise_cons.mpr ⟨?_, h⟩
      intro x hx
      rcases hx with _ | hx
      · exact hlt
      · exact le_trans (hb x (by assumption)) hlt

/-- The sort's output is descending in `confidence_score`. -/
theorem sortJobsDesc_sorted (l : List DiscoveredJob) :
    (sortJobsDesc l).Pairwise
      (fun a b => b.confidence_score ≤ a.confidence_score) := by
  induction l with
  | nil => simp [sortJobsDesc]
  | cons j rest ih => exact pairwise_insertJobDesc ih

/-- Stability of one insertion: inserting `j` never reorders the elements of
any single confidence class — the inserted element lands at the front of its
own class (it only passes elements with strictly higher scores) and other
classes are untouched. -/
theorem filter_insertJobDesc (c : ℚ) (j : DiscoveredJob) (l : List DiscoveredJob) :
    (insertJobDesc j l).filter (fun x => decide (x.confidence_score = c)) =
      if j.confidence_score = c then
        j :: l.filter (fun x => decide (x.confidence_score = c))
      else l.filter (fun x => decide (x.confidence_score = c)) := by
  induction l with
  | nil => by_cases h : j.confidence_score = c <;> simp [insertJobDesc, List.filter, h]
  | cons b rest ih =>
    rw [insertJobDesc]
    by_cases hlt : j.confidence_score < b.confidence_score
    · rw [if_pos hlt]
      simp only [List.filter_cons, ih]
      by_cases hj : j.confidence_score = c
      · have hb : ¬ b.confidence_score = c := by
          intro hb; rw [hj, hb] at hlt; exact lt_irrefl c hlt
        simp [hj, hb]
      · by_cases hb : b.confidence_score = c <;> simp [hj, hb]
    · rw [if_neg hlt]
      simp only [List.filter_cons]
      by_cases hj : j.confidence_score = c <;>
        by_cases hb : b.confidence_score = c <;> simp [hj, hb]

/-- Stability of the sort: each confidence class of the output is exactly the
corresponding class of the input, in the same order. -/
theorem filter_sortJobsDesc (c : ℚ) (l : List DiscoveredJob) :
    (sortJobsDesc l).filter (fun x => decide (x.confidence_score = c)) =
      l.filter (fun x => decide (x.confidence_score = c)) := by
  induction l with
  | nil => simp [sortJobsDesc]
  | cons j rest ih =>
    by_cases hj : j.confidence_score = c <;>
      simp [sortJobsDesc, filter_insertJobDesc, List.filter_cons, hj, ih]

/-! ## Lemmas about slicing -/

/-- Slicing `pyTake` is always a `take` of some length. -/
theorem pyTake_eq_take (n : Int) (l : List α) : ∃ m, pyTake n l = l.take m := by
  unfold pyTake
  by_cases h : 0 ≤ n
  · exact ⟨n.toNat, by rw [if_pos h]⟩
  · exact ⟨l.length - (-n).toNat, by rw [if_neg h]⟩

/-- For a nonnegative bound, `l[:n]` has at most `n` elements. -/
theorem pyTake_length_le {n : Int} (l : List α) (h : 0 ≤ n) :
    ((pyTake n l).length : Int) ≤ n := by
  unfold pyTake
  rw [if_pos h, List.length_take]
  omega

/-- Elements of `l[:n]` are elements of `l`. -/
theorem mem_pyTake {a : α} {n : Int} {l : List α} (h : a ∈ pyTake n l) : a ∈ l := by
  obtain ⟨m, hm⟩ := pyTake_eq_take n l
  rw [hm] at h
  exact List.mem_of_mem_take h

/-! ## Lemmas about the orchestrator -/

/-- The returned job list is always the sorted merge truncated by
`max_results` (the empty-URL early return coincides with this on `[]`). -/
theorem discover_jobs_jobs_eq (env : DiscoveryEnv) (r : DiscoverJobsRequest) :
    (discover_jobs env r).1 = pyTake r.max_results (sortJobsDesc (mergedJobs env r)) := by
  unfold discover_jobs
  by_cases h : discoveredUrls env r = []
  · simp [h, mergedJobs, sortJobsDesc, pyTake]
  · simp [h, mergedJobs]

/-- When URLs were discovered, the errors list is the crawl-failure entries
followed by the exception strings. -/
theorem discover_jobs_errors_eq (env : DiscoveryEnv) (r : DiscoverJobsRequest)
    (h : discoveredUrls env r ≠ []) :
    (discover_jobs env r).2.2.2 =
      ((discoveredUrls env r).map (process_url env)).filterMap resultCrawlErr ++
      ((discoveredUrls env r).map (process_url env)).filterMap resultExc := by
  unfold discover_jobs
  simp [h]

/-- Every job a successfully parsed element produces has its confidence score
inside `[0, 1]`. -/
theorem parseJob_conf {src : String} {d : JobDict} {j : DiscoveredJob}
    (h : parseJob src d = some j) :
    0 ≤ j.confidence_score ∧ j.confidence_score ≤ 1 := by
  unfold parseJob at h
  rcases d with ⟨t, c, loc, desc, au, sr, jt, pd, reqs, conf⟩
  cases t <;> cases c <;> cases desc <;> simp only [] at h
  case some.some.some t c desc =>
    by_cases hc : 0 ≤ (conf.getD 0 : ℚ) ∧ (conf.getD 0 : ℚ) ≤ 1
    · rw [if_pos hc] at h
      rcases Option.some.inj h with rfl
      exact hc
    · rw [if_neg hc] at h
      exact absurd h (by simp)
  all_goals exact Option.noConfusion h

/-- Every job extraction returns has its confidence score inside `[0, 1]`. -/
theorem extract_jobs_conf {content src : String} {llm : Option (List JobDict)}
    {j : DiscoveredJob} (h : j ∈ extract_jobs_from_content content src llm) :
    0 ≤ j.confidence_score ∧ j.confidence_score ≤ 1 := by
  unfold extract_jobs_from_content at h
  split at h
  · exact absurd h (by simp)
  · cases llm with
    | none => exact absurd h (by simp)
    | some elems =>
      simp only [parseJobs, List.mem_filterMap] at h
      obtain ⟨d, _, hd⟩ := h
      exact parseJob_conf hd

/-- Every job a per-URL task contributes has its confidence score in `[0, 1]`. -/
theorem processUrl_jobs_conf {env : DiscoveryEnv} {u : String} {j : DiscoveredJob}
    (h : j ∈ resultJobs (process_url env u)) :
    0 ≤ j.confidence_score ∧ j.confidence_score ≤ 1 := by
  unfold process_url at h
  split at h
  · exact absurd h (by simp [resultJobs])
  · split at h
    · split at h
      · exact absurd h (by simp [resultJobs])
      · exact extract_jobs_conf (by simpa [resultJobs] using h)
    · exact absurd h (by simp [resultJobs])

/-- Every job in the pre-truncation merge has its confidence score in `[0, 1]`. -/
theorem mergedJobs_conf {env : DiscoveryEnv} {r : DiscoverJobsRequest}
    {j : DiscoveredJob} (h : j ∈ mergedJobs env r) :
    0 ≤ j.confidence_score ∧ j.confidence_score ≤ 1 := by
  unfold mergedJobs at h
  rw [List.mem_flatten] at h
  obtain ⟨l, hl, hj⟩ := h
  rw [List.mem_map] at hl
  obtain ⟨res, hres, rfl⟩ := hl
  rw [List.mem_map] at hres
  obtain ⟨u, _, rfl⟩ := hres
  exact processUrl_jobs_conf hj

/-- Free slots plus gate holders always total the semaphore's capacity 5. -/
theorem crawlGate_slots_inv {n : Nat} {s : CrawlGateState}
    (h : CrawlGateReachable n s) : s.available + s.holding = 5 := by
  induction h with
  | init => rfl
  | step _ hst ih => cases hst <;> simp_all <;> omega

/-! ## Claims -/

/-- Claim C1, counterexample. The boundary validation accepts `max_results = -1`
(the pydantic field only declares `le=20`), and on such an admitted request the
returned job list — empty, since a negative budget discovers no URLs — still
violates `len(result.jobs) <= max_results`, so the bound does not hold for
every value of `max_results` the boundary admits. -/
theorem jobs_cap_claim_fails_on_admitted_request :
    requestAccepted reqNeg = true ∧
    ¬(((discover_jobs envTrivial reqNeg).1.length : Int) ≤ reqNeg.max_results) := by
  decide

/-- Claim C1 (amended: for every request whose `max_results` is nonnegative —
in particular every value in the spec's 1..20 range): the orchestrator's
returned job list satisfies `0 ≤ len(result.jobs) ≤ max_results`, because
after merging the per-URL extraction results it truncates the
confidence-sorted list to `max_results`. -/
theorem jobs_length_within_nonneg_cap :
    ∀ (env : DiscoveryEnv) (r : DiscoverJobsRequest), 0 ≤ r.max_results →
      0 ≤ ((discover_jobs env r).1.length : Int) ∧
      ((discover_jobs env r).1.length : Int) ≤ r.max_results := by
  intro env r h
  refine ⟨Int.ofNat_nonneg _, ?_⟩
  rw [discover_jobs_jobs_eq]
  exact pyTake_length_le _ h

/-- Claim C1, witness: the amended bound at a concrete run with
`max_results = 5`. -/
theorem jobs_length_within_nonneg_cap_witness :
    0 ≤ reqBase.max_results ∧
    (0 ≤ ((discover_jobs envTrivial reqBase).1.length : Int) ∧
     ((discover_jobs envTrivial reqBase).1.length : Int) ≤ reqBase.max_results) :=
  ⟨by decide, jobs_length_within_nonneg_cap envTrivial reqBase (by decide)⟩

/-- Claim C2: the returned jobs are ordered non-increasing by
`confidence_score`, and the sort is stable — within every confidence class the
returned jobs are an order-preserving prefix of that class of the per-URL
extraction merge. -/
theorem jobs_sorted_desc_and_stable :
    ∀ (env : DiscoveryEnv) (r : DiscoverJobsRequest),
      (discover_jobs env r).1.Pairwise
        (fun a b => b.confidence_score ≤ a.confidence_score) ∧
      ∀ c : ℚ, ∃ t,
        (mergedJobs env r).filter (fun x => decide (x.confidence_score = c)) =
          (discover_jobs env r).1.filter (fun x => decide (x.confidence_score = c)) ++ t := by
  intro env r
  rw [discover_jobs_jobs_eq]
  obtain ⟨m, hm⟩ := pyTake_eq_take r.max_results (sortJobsDesc (mergedJobs env r))
  rw [hm]
  constructor
  · exact List.Pairwise.sublist (List.take_sublist m _) (sortJobsDesc_sorted _)
  · intro c
    refine ⟨((sortJobsDesc (mergedJobs env r)).drop m).filter
      (fun x => decide (x.confidence_score = c)), ?_⟩
    rw [← List.filter_append, List.take_append_drop]
    exact (filter_sortJobsDesc c _).symm

set_option maxRecDepth 10000 in
/-- Claim C3, counterexample. With three discovered URLs, the task for `urlA`
raising an exception reading `"boom"`, and `max_results = 3`: sibling `urlC`'s
second job is produced by its pipeline yet absent from the final result (the
truncation cut it), and the only errors entry is `"boom"`, which does not
identify the failing URL. -/
theorem failure_isolation_claim_fails :
    (discover_jobs env3 req3).1 =
      [jobWith urlB "b1" (mkRat 9 10), jobWith urlB "b2" (mkRat 8 10),
       jobWith urlC "c1" (mkRat 5 10)] ∧
    jobWith urlC "c2" (mkRat 4 10) ∈ resultJobs (process_url env3 urlC) ∧
    jobWith urlC "c2" (mkRat 4 10) ∉ (discover_jobs env3 req3).1 ∧
    (discover_jobs env3 req3).2.2.2 = ["boom"] ∧
    strContains "boom" urlA = false := by
  decide

/-- Claim C3 (amended): a failing per-URL pipeline never cancels its siblings —
every URL's extracted jobs enter the pre-truncation merge, and the final list
is exactly that merge sorted and truncated to `max_results` (so a sibling's
job can still be cut by the truncation); a fetch failure is converted into the
errors entry `"Failed to crawl: <url>"` naming the URL, while a raised task
exception is converted into an errors entry holding the exception's message,
which need not name the URL. -/
theorem failure_isolated_per_url :
    ∀ (env : DiscoveryEnv) (r : DiscoverJobsRequest) (u : String),
      u ∈ discoveredUrls env r →
      (∀ u' ∈ discoveredUrls env r,
        (resultJobs (process_url env u')).Sublist (mergedJobs env r)) ∧
      (∀ msg, env.taskExc u = some msg → msg ∈ (discover_jobs env r).2.2.2) ∧
      (env.taskExc u = none →
        crawl_page env.clean (env.fetch u) = none ∨
          crawl_page env.clean (env.fetch u) = some "" →
        ("Failed to crawl: " ++ u) ∈ (discover_jobs env r).2.2.2) ∧
      (discover_jobs env r).1 = pyTake r.max_results (sortJobsDesc (mergedJobs env r)) := by
  intro env r u hu
  have hne : discoveredUrls env r ≠ [] := List.ne_nil_of_mem hu
  refine ⟨?_, ?_, ?_, discover_jobs_jobs_eq env r⟩
  · intro u' hu'
    unfold mergedJobs
    exact List.sublist_flatten_of_mem
      (List.mem_map_of_mem resultJobs (List.mem_map_of_mem (process_url env) hu'))
  · intro msg hmsg
    rw [discover_jobs_errors_eq env r hne]
    refine List.mem_append_right _ (List.mem_filterMap.mpr ?_)
    exact ⟨process_url env u, List.mem_map_of_mem _ hu,
      by simp [process_url, hmsg, resultExc]⟩
  · intro htask hcr
    rw [discover_jobs_errors_eq env r hne]
    refine List.mem_append_left _ (List.mem_filterMap.mpr ?_)
    refine ⟨process_url env u, List.mem_map_of_mem _ hu, ?_⟩
    rcases hcr with h | h <;> simp [process_url, htask, h, resultCrawlErr]

/-- Claim C3, witness: in the concrete run `env3`, `urlA`'s task raised
`"boom"` and that string appears in the errors list. -/
theorem failure_isolated_per_url_witness :
    urlA ∈ discoveredUrls env3 req3 ∧
    env3.taskExc urlA = some "boom" ∧
    "boom" ∈ (discover_jobs env3 req3).2.2.2 :=
  ⟨by decide, by decide,
   (failure_isolated_per_url env3 req3 urlA (by decide)).2.1 "boom" (by decide)⟩

/-- Claim C4, counterexample. Status 201 is a 2xx status, yet the Page Fetcher
yields no content for it: the source tests `status_code != 200`, not
"non-2xx". -/
theorem crawl_page_claim_fails_on_2xx :
    200 ≤ 201 ∧ 201 < 300 ∧
    crawl_page id (.response 201 "career page body") = none := by
  decide

/-- Claim C4 (amended): the Page Fetcher yields no content exactly when a
transport exception occurs or the response status differs from exactly 200
(so non-200 2xx statuses also yield no content); a status-200 response yields
the cleaned, truncated page text; the function is total, so it never raises
to its caller. -/
theorem crawl_page_none_iff_not_status200 :
    ∀ clean : String → String,
      (∀ msg, crawl_page clean (.transportError msg) = none) ∧
      (∀ status body, status ≠ 200 → crawl_page clean (.response status body) = none) ∧
      (∀ body, crawl_page clean (.response 200 body) =
        some (cleanAndTruncate clean body)) := by
  intro clean
  refine ⟨fun msg => rfl, fun s b h => ?_, fun b => ?_⟩
  · simp [crawl_page, h]
  · simp [crawl_page]

/-- Claim C4, witness: a 404 response concretely yields no content. -/
theorem crawl_page_none_iff_not_status200_witness :
    (404 ≠ 200) ∧ crawl_page id (.response 404 "x") = none :=
  ⟨by decide, (crawl_page_none_iff_not_status200 id).2.1 404 "x" (by decide)⟩

/-- Claim C5, counterexample. When the model call fails and seven custom terms
are supplied, the fallback returns 11 queries: the 10-query cap is applied
only on the success path, never to the fallback list. -/
theorem query_count_cap_fails_in_fallback :
    ¬((generate_search_queries none "Backend Engineer" [] "Remote"
        ["t1", "t2", "t3", "t4", "t5", "t6", "t7"]).length ≤ 10) := by
  decide

/-- Claim C5 (amended): on model success the synthesizer returns at most 10
queries (model output plus custom terms, truncated); on model failure it
returns the deterministic fallback — four fixed queries, one skill query when
skills are nonempty, and every custom term, with no cap, so the fallback can
exceed 10 when enough custom terms are supplied. -/
theorem query_count_bounds :
    ∀ (role location : String) (skills custom_terms qs : List String),
      (generate_search_queries (some qs) role skills location custom_terms).length ≤ 10 ∧
      generate_search_queries none role skills location custom_terms =
        fallback_queries role skills location custom_terms ∧
      (fallback_queries role skills location custom_terms).length =
        4 + (match skills with | [] => 0 | _ :: _ => 1) + custom_terms.length := by
  intro role location skills custom_terms qs
  refine ⟨?_, rfl, ?_⟩
  · simp only [generate_search_queries, List.length_take]
    omega
  · cases skills <;> simp [fallback_queries] <;> omega

/-- Claim C6, counterexample. A request with `max_results = 0` — outside the
claimed 1..20 range — passes the boundary validation: the pydantic field
declares only the upper bound `le=20`, no lower bound. -/
theorem boundary_accepts_out_of_range_max_results :
    requestAccepted reqZero = true ∧ ¬(1 ≤ reqZero.max_results) := by
  decide

/-- Claim C6 (amended): the boundary validates only the upper bound — a
request is accepted exactly when `max_results ≤ 20`, so zero and negative
values are also admitted. -/
theorem requestAccepted_iff_le_twenty :
    ∀ r : DiscoverJobsRequest, requestAccepted r = true ↔ r.max_results ≤ 20 := by
  intro r
  simp [requestAccepted]

/-- Claim C7: the URL Filter rejects the linkedin job view (aggregator
denylist), accepts the greenhouse board (career-pattern tier), and rejects the
about page (no pattern, no keyword). -/
theorem url_filter_examples :
    is_valid_career_url "https://www.linkedin.com/jobs/view/123" = false ∧
    is_valid_career_url "https://boards.greenhouse.io/acme/jobs/1" = true ∧
    is_valid_career_url "https://acme.com/about" = false := by
  decide

/-- Claim C8: every job in the final result has `confidence_score` in
`[0, 1]`; an element whose confidence score lies outside that range fails
validation and is dropped individually (rejected at parse time, not clamped),
and dropping it leaves the parse of the other elements of the same page
unchanged. -/
theorem confidence_in_range_and_bad_dropped :
    (∀ (env : DiscoveryEnv) (r : DiscoverJobsRequest) (j : DiscoveredJob),
      j ∈ (discover_jobs env r).1 →
      0 ≤ j.confidence_score ∧ j.confidence_score ≤ 1) ∧
    (∀ (src : String) (d : JobDict) (c : ℚ),
      d.confidence_score = some c → c < 0 ∨ 1 < c → parseJob src d = none) ∧
    (∀ (src : String) (pre post : List JobDict) (d : JobDict),
      parseJob src d = none →
      parseJobs src (pre ++ d :: post) = parseJobs src (pre ++ post)) := by
  refine ⟨?_, ?_, ?_⟩
  · intro env r j h
    rw [discover_jobs_jobs_eq] at h
    exact mergedJobs_conf ((sortJobsDesc_perm _).mem_iff.mp (mem_pyTake h))
  · intro src d c hc hout
    rcases d with ⟨t, co, loc, desc, au, sr, jt, pd, reqs, conf⟩
    simp only [] at hc
    subst hc
    cases t <;> cases co <;> cases desc <;> unfold parseJob <;> simp only []
    case some.some.some t co desc =>
      rw [if_neg]
      rintro ⟨h1, h2⟩
      simp only [Option.getD_some] at h1 h2
      rcases hout with h | h <;> linarith
  · intro src pre post d h
    simp [parseJobs, List.filterMap_append, List.filterMap_cons, h]

set_option maxRecDepth 10000 in
/-- Claim C8, witness: a concrete in-range job from the `env3` run, and a
concrete element with confidence score 2 that parsing drops. -/
theorem confidence_in_range_and_bad_dropped_witness :
    (jobWith urlB "b1" (mkRat 9 10) ∈ (discover_jobs env3 req3).1 ∧
      0 ≤ (jobWith urlB "b1" (mkRat 9 10)).confidence_score ∧
      (jobWith urlB "b1" (mkRat 9 10)).confidence_score ≤ 1) ∧
    (dictBad.confidence_score = some 2 ∧ parseJob "s" dictBad = none) :=
  ⟨⟨by decide, confidence_in_range_and_bad_dropped.1 env3 req3 _ (by decide)⟩,
   ⟨rfl, confidence_in_range_and_bad_dropped.2.1 "s" dictBad 2 rfl
      (Or.inr (by norm_num))⟩⟩

/-- Claim C9: in every schedule of the crawl phase, whatever the number of
discovered URLs, no reachable state has more than 5 pipelines holding the
concurrency gate — the capacity-5 semaphore admits an entering task only when
a slot is free. -/
theorem gate_holding_le_five :
    ∀ (n : Nat) (s : CrawlGateState), CrawlGateReachable n s → s.holding ≤ 5 := by
  intro n s h
  have := crawlGate_slots_inv h
  omega

/-- Claim C9, witness: with 20 URLs, the state after one task entered the gate
is reachable and within the bound. -/
theorem gate_holding_le_five_witness :
    CrawlGateReachable 20 (CrawlGateState.mk 4 1 19 0) ∧
    (CrawlGateState.mk 4 1 19 0).holding ≤ 5 :=
  ⟨CrawlGateReachable.step CrawlGateReachable.init
     (CrawlGateStep.enter 5 0 20 0 (by omega) (by omega)),
   gate_holding_le_five 20 _
     (CrawlGateReachable.step CrawlGateReachable.init
       (CrawlGateStep.enter 5 0 20 0 (by omega) (by omega)))⟩

/-- Claim C10: an element with every required field present but no
`confidence_score` at all is not rejected — it parses to a job whose score
defaults to 0.0, it is kept in the page's parse output, and the descending
sort places a zero-scored job after every positively scored one (no job with
positive score can follow it). -/
theorem missing_confidence_defaults_zero_and_sorts_last :
    ∀ (src t c desc : String) (loc au sr jt pd : Option String)
      (reqs : Option (List String)),
      ∃ j : DiscoveredJob,
        parseJob src ⟨some t, some c, loc, some desc, au, sr, jt, pd, reqs, none⟩ =
          some j ∧
        j.confidence_score = 0 ∧
        (∀ pre post,
          parseJobs src
              (pre ++ ⟨some t, some c, loc, some desc, au, sr, jt, pd, reqs, none⟩
                :: post) =
            parseJobs src pre ++ j :: parseJobs src post) ∧
        (∀ l : List DiscoveredJob,
          (sortJobsDesc l).Pairwise
            (fun a b => a.confidence_score = 0 → b.confidence_score ≤ 0)) := by
  intro src t c desc loc au sr jt pd reqs
  have hparse :
      parseJob src ⟨some t, some c, loc, some desc, au, sr, jt, pd, reqs, none⟩ =
        some { title := t, company := c, location := loc, description := desc,
               apply_url := match au with
                 | none => src
                 | some s => if s = "" then src else s,
               source_url := src, salary_range := sr, job_type := jt,
               posted_date := pd, requirements := reqs.getD [],
               confidence_score := 0 } := by
    simp only [parseJob, Option.getD_none]
    rw [if_pos ⟨le_refl (0 : ℚ), zero_le_one⟩]
  refine ⟨_, hparse, rfl, ?_, ?_⟩
  · intro pre post
    simp [parseJobs, List.filterMap_append, List.filterMap_cons, hparse]
  · intro l
    exact (sortJobsDesc_sorted l).imp (fun hba ha => by rw [ha] at hba; exact hba)

end Discovery
